import Mathlib

/-
Verification of the SpiroGraph kinematics, trace, view-transform and export
pipeline.  The definitions below are a shallow embedding of the TypeScript
source (src/components/SpirographRenderer.tsx and the application shell):
JavaScript double arithmetic is modelled by the real numbers, and the
per-frame mutable refs (angleRef, rotorParamRef, rotorRotationRef, pointsRef)
are modelled by an explicit SimState value threaded through the step
functions.  Definitions named spec... are written from the specification's
wording and are compared against the source-derived definitions in the
refinement theorems.
-/

open Real

namespace SpiroGraph

/-- Numeric part of SpiroConfig (src/types.ts).  Pen color and styling strings
play no role in the claims and are omitted.  numerator/denominator are the
optional rational ratio hint. -/
structure SpiroConfig where
  outerRadius : ℝ
  innerRadius : ℝ
  penOffset : ℝ
  speed : ℝ
  statorAspect : ℝ
  rotorAspect : ℝ
  showGears : Bool
  numerator : Option ℕ
  denominator : Option ℕ

/-- Simulation state: the mutable refs of SpirographRenderer
(angleRef = t, rotorParamRef = u, rotorRotationRef = phi, pointsRef = trace). -/
structure SimState where
  t : ℝ
  u : ℝ
  phi : ℝ
  trace : List (ℝ × ℝ)

/-- Result record of calculateExactStep and calculatePhysicsStep:
pen position (px, py), rotor center (cx, cy), new rotor parameter,
rotor global rotation phi, and stator contact point. -/
structure StepResult where
  px : ℝ
  py : ℝ
  cx : ℝ
  cy : ℝ
  newU : ℝ
  phi : ℝ
  contactX : ℝ
  contactY : ℝ

/-- Result record of getGeometry (no newU field in the source). -/
structure Geometry where
  px : ℝ
  py : ℝ
  cx : ℝ
  cy : ℝ
  phi : ℝ
  contactX : ℝ
  contactY : ℝ

/-- Model of JavaScript Math.atan2 (up to signed zero, which reals lack). -/
noncomputable def atan2 (y x : ℝ) : ℝ :=
  if 0 < x then arctan (y / x)
  else if x < 0 then
    (if 0 ≤ y then arctan (y / x) + π else arctan (y / x) - π)
  else if 0 < y then π / 2
  else if y < 0 then -(π / 2)
  else 0

/-- getGeometry (SpirographRenderer.tsx lines 105-150): reconstruct world
geometry from stator angle t and rotor parameter u. -/
noncomputable def getGeometry (t u R r d sAspect rAspect : ℝ) : Geometry :=
  let sx := R * cos t
  let sy := R * sAspect * sin t
  let stx := -R * sin t
  let sty := R * sAspect * cos t
  let alpha := atan2 stx (-sty)
  let rtx := -r * sin u
  let rty := r * rAspect * cos u
  let beta := atan2 (rtx * -1) rty
  let phi := alpha - beta + π
  let rcx := r * cos u
  let rcy := r * rAspect * sin u
  let cosPhi := cos phi
  let sinPhi := sin phi
  let rotRcx := rcx * cosPhi - rcy * sinPhi
  let rotRcy := rcx * sinPhi + rcy * cosPhi
  let cx := sx - rotRcx
  let cy := sy - rotRcy
  let px := cx + d * cosPhi
  let py := cy + d * sinPhi
  { px := px, py := py, cx := cx, cy := cy, phi := phi,
    contactX := sx, contactY := sy }

/-- calculateExactStep (SpirographRenderer.tsx lines 152-161):
closed-form hypotrochoid step for the circular case. -/
noncomputable def calculateExactStep (t R r d : ℝ) : StepResult :=
  let cx := (R - r) * cos t
  let cy := (R - r) * sin t
  let phi := t * (1 - R / r)
  let px := cx + d * cos phi
  let py := cy + d * sin phi
  let contactX := R * cos t
  let contactY := R * sin t
  { px := px, py := py, cx := cx, cy := cy, newU := 0, phi := phi,
    contactX := contactX, contactY := contactY }

/-- getEllipseMetric (lines 163-169): magnitude of the parametric tangent
vector of the ellipse (radius, radius*aspect) at the given angle. -/
noncomputable def getEllipseMetric (angle radius aspect : ℝ) : ℝ :=
  let dx := -radius * sin angle
  let dy := radius * aspect * cos angle
  Real.sqrt (dx * dx + dy * dy)

open Classical in
/-- The denominator actually used by getDerivative: models the JavaScript
expression rotorSpeed || 0.0001, which replaces an exactly-zero rotor speed
by 0.0001. -/
noncomputable def derivDenom (u r rAspect : ℝ) : ℝ :=
  let rotorSpeed := getEllipseMetric u r rAspect
  if rotorSpeed = 0 then 0.0001 else rotorSpeed

/-- getDerivative (lines 171-175): du/dt = statorSpeed / (rotorSpeed || 0.0001). -/
noncomputable def getDerivative (t u R sAspect r rAspect : ℝ) : ℝ :=
  getEllipseMetric t R sAspect / derivDenom u r rAspect

/-- The RK4 update of u inside calculatePhysicsStep (lines 186-193). -/
noncomputable def rk4NewU (t dt currentU R r sAspect rAspect : ℝ) : ℝ :=
  let k1 := getDerivative t currentU R sAspect r rAspect
  let k2 := getDerivative (t + dt / 2) (currentU + dt * k1 / 2) R sAspect r rAspect
  let k3 := getDerivative (t + dt / 2) (currentU + dt * k2 / 2) R sAspect r rAspect
  let k4 := getDerivative (t + dt) (currentU + dt * k3) R sAspect r rAspect
  currentU + dt / 6 * (k1 + 2 * k2 + 2 * k3 + k4)

/-- calculatePhysicsStep (lines 177-199): one RK4 sub-step followed by
geometric reconstruction at (t + dt, newU). -/
noncomputable def calculatePhysicsStep (t dt currentU R r d sAspect rAspect : ℝ) :
    StepResult :=
  let newU := rk4NewU t dt currentU R r sAspect rAspect
  let geom := getGeometry (t + dt) newU R r d sAspect rAspect
  { px := geom.px, py := geom.py, cx := geom.cx, cy := geom.cy,
    newU := newU, phi := geom.phi,
    contactX := geom.contactX, contactY := geom.contactY }

/-- The fixed virtual time-step dt = 0.002 of the animate loop (line 467). -/
noncomputable def simDt : ℝ := 0.002

/-- Mode selection (line 463): both aspects within 0.005 of 1.0. -/
def isCircular (cfg : SpiroConfig) : Prop :=
  |cfg.statorAspect - 1| < 0.005 ∧ |cfg.rotorAspect - 1| < 0.005

open Classical in
/-- One sub-step of the animate loop (lines 470-485).  In the circular branch
only angleRef advances and the exact-step pen point is appended; in the
numeric branch the physics step advances rotorParamRef and rotorRotationRef
as well. -/
noncomputable def engineSubStep (cfg : SpiroConfig) (s : SimState) : SimState :=
  if isCircular cfg then
    let t := s.t + simDt
    let st := calculateExactStep t cfg.outerRadius cfg.innerRadius cfg.penOffset
    { t := t, u := s.u, phi := s.phi, trace := s.trace ++ [(st.px, st.py)] }
  else
    let st := calculatePhysicsStep s.t simDt s.u cfg.outerRadius cfg.innerRadius
      cfg.penOffset cfg.statorAspect cfg.rotorAspect
    { t := s.t + simDt, u := st.newU, phi := st.phi,
      trace := s.trace ++ [(st.px, st.py)] }

open Classical in
/-- One animation tick while playing (lines 466-492): the given number of
sub-steps, then in the circular case a final refresh of rotorRotationRef
from the exact step at the current angle (lines 488-491). -/
noncomputable def engineTick (cfg : SpiroConfig) (steps : ℕ) (s : SimState) : SimState :=
  let s1 := (engineSubStep cfg)^[steps] s
  if isCircular cfg then
    { s1 with
      phi := (calculateExactStep s1.t cfg.outerRadius cfg.innerRadius cfg.penOffset).phi }
  else s1

/-- The cleared simulation state. -/
def clearState : SimState := { t := 0, u := 0, phi := 0, trace := [] }

/-- The shouldClear effect (lines 91-99): pointsRef, angleRef, rotorParamRef
and rotorRotationRef are all reset in one synchronous effect body; the
single-threaded frame model makes this one indivisible state transformation. -/
def clearSim (_s : SimState) : SimState := clearState

/-- A state is cleared when t = u = phi = 0 and the trace is empty. -/
def isCleared (s : SimState) : Prop :=
  s.t = 0 ∧ s.u = 0 ∧ s.phi = 0 ∧ s.trace = []

/-- The pan/zoom state: offset (x, y) in screen pixels and scale k. -/
structure ViewTransform where
  x : ℝ
  y : ℝ
  k : ℝ

/-- The zoom update of handleWheel (SpirographRenderer.tsx lines 628-637):
clamp the new scale into the bracket from 0.1 to 20, then recompute the
offset so the world point under the anchor stays under it.  The pinch
branch of handlePointerMove runs the same formulas with the pinch midpoint
as anchor. -/
noncomputable def zoomAt (prev : ViewTransform) (mouseX mouseY W H scaleFactor : ℝ) :
    ViewTransform :=
  let newK := max 0.1 (min 20 (prev.k * scaleFactor))
  let worldX := (mouseX - (W / 2 + prev.x)) / prev.k
  let worldY := (mouseY - (H / 2 + prev.y)) / prev.k
  { x := mouseX - W / 2 - worldX * newK,
    y := mouseY - H / 2 - worldY * newK,
    k := newK }

open Classical in
/-- The pinch branch of handlePointerMove (the two-pointer case): the zoom
formulas are applied only when the successive-distance scale factor differs
from 1 by more than 0.005; otherwise the transform is left unchanged. -/
noncomputable def pinchZoom (prev : ViewTransform) (mouseX mouseY W H scaleFactor : ℝ) :
    ViewTransform :=
  if 0.005 < |scaleFactor - 1| then zoomAt prev mouseX mouseY W H scaleFactor
  else prev

/-- The world coordinate currently under a screen point for a transform:
worldPoint = (screenPoint - (center + offset)) / k, as computed in
handleWheel. -/
noncomputable def worldUnder (tr : ViewTransform) (W H mouseX mouseY : ℝ) : ℝ × ℝ :=
  ((mouseX - (W / 2 + tr.x)) / tr.k, (mouseY - (H / 2 + tr.y)) / tr.k)

/-- The zoom-in button handler: k is multiplied by 1.2 with no clamping. -/
noncomputable def zoomInButton (prev : ViewTransform) : ViewTransform :=
  { prev with k := prev.k * 1.2 }

/-- The zoom-out button handler: k is divided by 1.2 with no clamping. -/
noncomputable def zoomOutButton (prev : ViewTransform) : ViewTransform :=
  { prev with k := prev.k / 1.2 }

open Classical in
/-- calculateOptimalScale from the application shell: fit the largest of the
trace, gear and stator extents into the viewport with 0.9 padding, clamped
into the bracket from 0.1 to 5. -/
noncomputable def calculateOptimalScale (cfg : SpiroConfig) (width height : ℝ) : ℝ :=
  let R := cfg.outerRadius
  let r := cfg.innerRadius
  let d := cfg.penOffset
  let sAspect := if cfg.statorAspect = 0 then 1 else cfg.statorAspect
  let rAspect := if cfg.rotorAspect = 0 then 1 else cfg.rotorAspect
  let maxR := R * max 1 sAspect
  let maxr := r * max 1 rAspect
  let centerDist := |R - r|
  let traceExtent := centerDist + d
  let gearExtent := if cfg.showGears then centerDist + maxr else 0
  let statorExtent := maxR
  let maxExtent := max traceExtent (max gearExtent statorExtent)
  let minDim := min width height
  max 0.1 (min 5 (minDim / 2 * 0.9 / (if maxExtent = 0 then 1 else maxExtent)))

/-- The reset-view button: zero the offset and take the optimal scale. -/
noncomputable def resetView (cfg : SpiroConfig) (width height : ℝ) : ViewTransform :=
  { x := 0, y := 0, k := calculateOptimalScale cfg width height }

open Classical in
/-- calculateEllipseCircumference (lines 18-26): exact circle circumference
when aspect = 1, Ramanujan's approximation otherwise. -/
noncomputable def calculateEllipseCircumference (radius aspect : ℝ) : ℝ :=
  if aspect = 1 then 2 * π * radius
  else
    let a := radius
    let b := radius * aspect
    let h := (a - b) ^ 2 / (a + b) ^ 2
    π * (a + b) * (1 + 3 * h / (10 + Real.sqrt (4 - 3 * h)))

/-- JavaScript Number.MAX_VALUE, the initial minError of the ratio search. -/
def jsMaxValue (α : Type*) [LinearOrderedField α] : α := (2 ^ 53 - 1) * 2 ^ 971

open Classical in
/-- The exhaustive ratio search of the download effect (lines 345-356),
iterating the denominators 1, ..., k in order; the accumulator carries
(bestN, bestD, minError), starting at (0, 1, Number.MAX_VALUE), and updates
exactly when the error of the rounded numerator is strictly smaller.  Stated
over any linear ordered field with a floor so the same definition covers the
JavaScript doubles modelled as reals. -/
noncomputable def ratioLoopAux {α : Type*} [LinearOrderedField α] [FloorRing α]
    (val : α) : ℕ → ℤ × ℕ × α
  | 0 => (0, 1, jsMaxValue α)
  | k + 1 =>
    let acc := ratioLoopAux val k
    let d := k + 1
    let n := round (val * (d : α))
    let e := |val - (n : α) / (d : α)|
    if e < acc.2.2 then (n, d, e) else acc

/-- The full search over denominators 1..1000. -/
noncomputable def ratioLoop {α : Type*} [LinearOrderedField α] [FloorRing α]
    (val : α) : ℤ × ℕ × α :=
  ratioLoopAux val 1000

/-- The circumference ratio fed to the fallback search: inner circumference
over outer circumference. -/
noncomputable def ratioFallbackVal (cfg : SpiroConfig) : ℝ :=
  calculateEllipseCircumference cfg.innerRadius cfg.rotorAspect /
    calculateEllipseCircumference cfg.outerRadius cfg.statorAspect

/-- The (bestN, bestD) pair of the fallback search. -/
noncomputable def ratioFallback (cfg : SpiroConfig) : ℤ × ℕ :=
  ((ratioLoop (ratioFallbackVal cfg)).1, (ratioLoop (ratioFallbackVal cfg)).2.1)

/-- The displayed rotor/stator ratio of the annotated export (lines 333-357):
the stored hint when both parts are set and nonzero (JavaScript truthiness),
the fallback search otherwise. -/
noncomputable def ratioDisplayed (cfg : SpiroConfig) : ℤ × ℕ :=
  match cfg.numerator, cfg.denominator with
  | some n, some d => if n ≠ 0 ∧ d ≠ 0 then ((n : ℤ), d) else ratioFallback cfg
  | _, _ => ratioFallback cfg

/- Specification-side definitions, written from the spec's wording, to be
compared with the source-derived definitions above. -/

/-- Spec: rotor center = (R - r) (cos t, sin t) in exact mode. -/
noncomputable def specExactCenter (R r t : ℝ) : ℝ × ℝ :=
  ((R - r) * cos t, (R - r) * sin t)

/-- Spec: rotor ... phi = t (1 - R / r) in exact mode. -/
noncomputable def specExactPhi (R r t : ℝ) : ℝ := t * (1 - R / r)

/-- Spec: pen position = center + d (cos phi, sin phi) in exact mode. -/
noncomputable def specExactPen (R r d t : ℝ) : ℝ × ℝ :=
  ((specExactCenter R r t).1 + d * cos (specExactPhi R r t),
   (specExactCenter R r t).2 + d * sin (specExactPhi R r t))

/-- Spec: stator contact point = R (cos t, sin t) in exact mode. -/
noncomputable def specExactContact (R t : ℝ) : ℝ × ℝ := (R * cos t, R * sin t)

/-- Spec: speed = magnitude of the ellipse's parametric tangent vector at the
angle, for its own radius and aspect. -/
noncomputable def specEllipseSpeed (angle radius aspect : ℝ) : ℝ :=
  Real.sqrt ((-(radius * sin angle)) ^ 2 + (radius * aspect * cos angle) ^ 2)

/-- Spec: du/dt = statorSpeed(t) / rotorSpeed(u), with no clamping. -/
noncomputable def specDerivative (t u R sAspect r rAspect : ℝ) : ℝ :=
  specEllipseSpeed t R sAspect / specEllipseSpeed u r rAspect

/-- Spec: evaluate the derivative at (t, u), (t + dt/2, u + dt k1/2),
(t + dt/2, u + dt k2/2), (t + dt, u + dt k3); advance u by the RK4-weighted
sum (dt/6)(k1 + 2 k2 + 2 k3 + k4). -/
noncomputable def specRK4NewU (t dt u R r sAspect rAspect : ℝ) : ℝ :=
  let k1 := specDerivative t u R sAspect r rAspect
  let k2 := specDerivative (t + dt / 2) (u + dt * k1 / 2) R sAspect r rAspect
  let k3 := specDerivative (t + dt / 2) (u + dt * k2 / 2) R sAspect r rAspect
  let k4 := specDerivative (t + dt) (u + dt * k3) R sAspect r rAspect
  u + dt / 6 * (k1 + 2 * k2 + 2 * k3 + k4)

/-- Rotation of a plane vector by an angle. -/
noncomputable def rotVec (phi : ℝ) (v : ℝ × ℝ) : ℝ × ℝ :=
  (v.1 * cos phi - v.2 * sin phi, v.1 * sin phi + v.2 * cos phi)

/-- Spec: the stator contact point at parameter t of the stator ellipse. -/
noncomputable def specStatorContact (t R sAspect : ℝ) : ℝ × ℝ :=
  (R * cos t, R * sAspect * sin t)

/-- Spec: the rotor-center-to-contact vector in the rotor's own ellipse
frame at parameter u. -/
noncomputable def specRotorLocalContact (u r rAspect : ℝ) : ℝ × ℝ :=
  (r * cos u, r * rAspect * sin u)

/-- Spec: global orientation alpha from the stator tangent direction at t,
measured as the renderer measures it (the angle of the stator tangent
vector rotated a quarter turn). -/
noncomputable def specAlpha (t R sAspect : ℝ) : ℝ :=
  atan2 (-(R * sin t)) (-(R * sAspect * cos t))

/-- Spec: local orientation beta from the rotor tangent direction at u,
measured as the renderer measures it. -/
noncomputable def specBeta (u r rAspect : ℝ) : ℝ :=
  atan2 (r * sin u) (r * rAspect * cos u)

/-- Spec: total rotor ... phi = alpha - beta + pi. -/
noncomputable def specNumericPhi (t u R r sAspect rAspect : ℝ) : ℝ :=
  specAlpha t R sAspect - specBeta u r rAspect + π

/-- Spec: rotor center = stator contact point minus the
rotor-center-to-contact vector rotated by phi. -/
noncomputable def specRotorCenter (t u R r sAspect rAspect : ℝ) : ℝ × ℝ :=
  ((specStatorContact t R sAspect).1 -
     (rotVec (specNumericPhi t u R r sAspect rAspect)
        (specRotorLocalContact u r rAspect)).1,
   (specStatorContact t R sAspect).2 -
     (rotVec (specNumericPhi t u R r sAspect rAspect)
        (specRotorLocalContact u r rAspect)).2)

/-- Spec: pen position = rotor center + d (cos phi, sin phi) in numeric mode. -/
noncomputable def specNumericPen (t u R r d sAspect rAspect : ℝ) : ℝ × ℝ :=
  ((specRotorCenter t u R r sAspect rAspect).1 +
     d * cos (specNumericPhi t u R r sAspect rAspect),
   (specRotorCenter t u R r sAspect rAspect).2 +
     d * sin (specNumericPhi t u R r sAspect rAspect))

/-- The concrete configuration of spec scenario 1: R = 150, r = 52, d = 70,
both aspects 1. -/
def scenarioConfig : SpiroConfig :=
  { outerRadius := 150, innerRadius := 52, penOffset := 70, speed := 1,
    statorAspect := 1, rotorAspect := 1, showGears := true,
    numerator := none, denominator := none }

/- Helper lemmas about the kinematics. -/

lemma getEllipseMetric_nonneg (angle radius aspect : ℝ) :
    0 ≤ getEllipseMetric angle radius aspect := by
  simp only [getEllipseMetric]
  exact Real.sqrt_nonneg _

lemma getEllipseMetric_pos (angle : ℝ) {radius aspect : ℝ}
    (hr : 0 < radius) (ha : 0 < aspect) : 0 < getEllipseMetric angle radius aspect := by
  simp only [getEllipseMetric]
  rw [Real.sqrt_pos]
  rcases eq_or_ne (sin angle) 0 with hs | hs
  · have hc : cos angle ≠ 0 := by
      intro h
      have h1 := sin_sq_add_cos_sq angle
      rw [hs, h] at h1
      norm_num at h1
    have h2 : 0 < radius * aspect * cos angle * (radius * aspect * cos angle) :=
      mul_self_pos.mpr (mul_ne_zero (mul_ne_zero hr.ne' ha.ne') hc)
    nlinarith [mul_self_nonneg (-radius * sin angle)]
  · have h2 : 0 < -radius * sin angle * (-radius * sin angle) :=
      mul_self_pos.mpr (mul_ne_zero (neg_ne_zero.mpr hr.ne') hs)
    nlinarith [mul_self_nonneg (radius * aspect * cos angle)]

lemma derivDenom_pos (u r rAspect : ℝ) : 0 < derivDenom u r rAspect := by
  by_cases h : getEllipseMetric u r rAspect = 0
  · simp only [derivDenom, if_pos h]
    norm_num
  · simp only [derivDenom, if_neg h]
    exact lt_of_le_of_ne (getEllipseMetric_nonneg u r rAspect) (Ne.symm h)

lemma getDerivative_pos (t u : ℝ) {R sAspect : ℝ} (r rAspect : ℝ)
    (hR : 0 < R) (hsA : 0 < sAspect) :
    0 < getDerivative t u R sAspect r rAspect :=
  div_pos (getEllipseMetric_pos t hR hsA) (derivDenom_pos u r rAspect)

lemma specEllipseSpeed_eq (angle radius aspect : ℝ) :
    specEllipseSpeed angle radius aspect = getEllipseMetric angle radius aspect := by
  simp only [specEllipseSpeed, getEllipseMetric]
  congr 1
  ring

lemma getDerivative_eq_spec {u r rAspect : ℝ}
    (h : getEllipseMetric u r rAspect ≠ 0) (t R sAspect : ℝ) :
    getDerivative t u R sAspect r rAspect = specDerivative t u R sAspect r rAspect := by
  simp only [getDerivative, specDerivative, derivDenom, specEllipseSpeed_eq, if_neg h]

lemma getDerivative_eq_spec_of_pos {r rAspect : ℝ} (hr : 0 < r) (hrA : 0 < rAspect)
    (t u R sAspect : ℝ) :
    getDerivative t u R sAspect r rAspect = specDerivative t u R sAspect r rAspect :=
  getDerivative_eq_spec (getEllipseMetric_pos u hr hrA).ne' t R sAspect

/-- C3: For every Config with both aspects equal to 1 and every sub-step
count N, two runs of the engine from a cleared state (t = 0, u = 0, empty
trace) with the same Config and N sub-steps produce identical TracePoint
sequences.  The engine step is a pure function of (Config, state), so the
two runs coincide. -/
theorem run_deterministic (cfg : SpiroConfig) (N : ℕ) (s1 s2 : SimState)
    (hsA : cfg.statorAspect = 1) (hrA : cfg.rotorAspect = 1)
    (h1 : isCleared s1) (h2 : isCleared s2) :
    ((engineSubStep cfg)^[N] s1).trace = ((engineSubStep cfg)^[N] s2).trace := by
  have hs : s1 = s2 := by
    obtain ⟨a1, b1, c1, d1⟩ := h1
    obtain ⟨a2, b2, c2, d2⟩ := h2
    cases s1
    cases s2
    simp_all
  rw [hs]

theorem run_deterministic_witness :
    ((engineSubStep scenarioConfig)^[1000] clearState).trace =
      ((engineSubStep scenarioConfig)^[1000] clearState).trace :=
  run_deterministic scenarioConfig 1000 clearState clearState rfl rfl
    ⟨rfl, rfl, rfl, rfl⟩ ⟨rfl, rfl, rfl, rfl⟩

/-- C5: the clear operation resets the trace to empty and the simulation
state to (t = 0, u = 0, phi = 0) as one state transformation, and it is
idempotent: clearing a cleared state is a no-op, and clearing twice equals
clearing once. -/
theorem clear_resets_and_idempotent (s : SimState) :
    clearSim s = clearState ∧
    clearSim (clearSim s) = clearSim s ∧
    (isCleared s → clearSim s = s) := by
  refine ⟨rfl, rfl, fun h => ?_⟩
  obtain ⟨h1, h2, h3, h4⟩ := h
  cases s
  simp_all [clearSim, clearState]

theorem clear_resets_and_idempotent_witness :
    clearSim clearState = clearState ∧
    clearSim (clearSim clearState) = clearSim clearState ∧
    clearSim clearState = clearState := by
  obtain ⟨a, b, c⟩ := clear_resets_and_idempotent clearState
  exact ⟨a, b, c ⟨rfl, rfl, rfl, rfl⟩⟩

/-- C7: the numeric-mode derivative is total: the rotor-speed denominator
actually used is strictly positive (an exactly-zero rotor speed is replaced
by 0.0001, a nonzero one is used as is), so the division du/dt =
statorSpeed / denominator is always well-defined and no error branch
exists. -/
theorem derivative_total_and_guarded (t u R sAspect r rAspect : ℝ) :
    0 < derivDenom u r rAspect ∧
    (getEllipseMetric u r rAspect = 0 → derivDenom u r rAspect = 0.0001) ∧
    (getEllipseMetric u r rAspect ≠ 0 →
      derivDenom u r rAspect = getEllipseMetric u r rAspect) ∧
    getDerivative t u R sAspect r rAspect =
      getEllipseMetric t R sAspect / derivDenom u r rAspect := by
  refine ⟨derivDenom_pos u r rAspect, fun h => ?_, fun h => ?_, rfl⟩
  · simp only [derivDenom, if_pos h]
  · simp only [derivDenom, if_neg h]

theorem derivative_total_and_guarded_witness :
    0 < derivDenom 0 0 1 ∧ derivDenom 0 0 1 = 0.0001 := by
  obtain ⟨h1, h2, _, _⟩ := derivative_total_and_guarded 0 0 1 1 0 1
  exact ⟨h1, h2 (by simp [getEllipseMetric])⟩

/-- C9: in numeric mode, each RK4 sub-step strictly increases the rotor
parameter u whenever the radii and aspects are strictly positive, because
every stage derivative is a quotient of a strictly positive stator speed by
a strictly positive (possibly clamped) rotor-speed denominator. -/
theorem physicsStep_increases_rotorParam (t dt currentU R r d sAspect rAspect : ℝ)
    (hdt : 0 < dt) (hR : 0 < R) (hr : 0 < r) (hsA : 0 < sAspect) (hrA : 0 < rAspect) :
    currentU < (calculatePhysicsStep t dt currentU R r d sAspect rAspect).newU := by
  have key : ∀ a b : ℝ, 0 < getDerivative a b R sAspect r rAspect := fun a b =>
    getDerivative_pos a b r rAspect hR hsA
  simp only [calculatePhysicsStep, rk4NewU]
  set k1 := getDerivative t currentU R sAspect r rAspect with hk1
  set k2 := getDerivative (t + dt / 2) (currentU + dt * k1 / 2) R sAspect r rAspect with hk2
  set k3 := getDerivative (t + dt / 2) (currentU + dt * k2 / 2) R sAspect r rAspect with hk3
  set k4 := getDerivative (t + dt) (currentU + dt * k3) R sAspect r rAspect with hk4
  have h1 : 0 < k1 := hk1 ▸ key _ _
  have h2 : 0 < k2 := hk2 ▸ key _ _
  have h3 : 0 < k3 := hk3 ▸ key _ _
  have h4 : 0 < k4 := hk4 ▸ key _ _
  have hsum : 0 < k1 + 2 * k2 + 2 * k3 + k4 := by linarith
  have hdt6 : 0 < dt / 6 := by linarith
  nlinarith [mul_pos hdt6 hsum]

theorem physicsStep_increases_rotorParam_witness :
    (0:ℝ) < (calculatePhysicsStep 0 0.002 0 150 52 70 1 2).newU := by
  have h := physicsStep_increases_rotorParam 0 0.002 0 150 52 70 1 2
    (by norm_num) (by norm_num) (by norm_num) (by norm_num) (by norm_num)
  exact h

/-- C10: exact-mode stepping never modifies the rotor parameter u: while the
config is circular, every sub-step and every full tick leave u at its
previous value, so a later switch to numeric mode resumes from the same u. -/
theorem exact_mode_preserves_rotorParam (cfg : SpiroConfig) (h : isCircular cfg)
    (N steps : ℕ) (s : SimState) :
    ((engineSubStep cfg)^[N] s).u = s.u ∧ (engineTick cfg steps s).u = s.u := by
  have hstep : ∀ s' : SimState, (engineSubStep cfg s').u = s'.u := by
    intro s'
    simp only [engineSubStep, if_pos h]
  have hiter : ∀ (M : ℕ) (s' : SimState), ((engineSubStep cfg)^[M] s').u = s'.u := by
    intro M
    induction M with
    | zero => intro s'; simp
    | succ M ih =>
      intro s'
      rw [Function.iterate_succ_apply, ih, hstep]
  refine ⟨hiter N s, ?_⟩
  simp only [engineTick, if_pos h]
  exact hiter steps s

theorem exact_mode_preserves_rotorParam_witness :
    ((engineSubStep scenarioConfig)^[3] clearState).u = clearState.u ∧
    (engineTick scenarioConfig 5 clearState).u = clearState.u :=
  exact_mode_preserves_rotorParam scenarioConfig
    (by constructor <;> norm_num [scenarioConfig, isCircular]) 3 5 clearState

/-- C1: in exact mode (both aspects within 0.005 of 1), each sub-step
advances t by dt, leaves u and phi alone, and appends the closed-form
hypotrochoid pen point at the new angle; and the exact step's geometry
matches the spec's closed forms: center = (R - r)(cos t, sin t),
phi = t (1 - R/r), pen = center + d (cos phi, sin phi),
contact = R (cos t, sin t). -/
theorem exact_step_is_closed_form (cfg : SpiroConfig) (s : SimState)
    (h : isCircular cfg) :
    engineSubStep cfg s =
      { t := s.t + simDt, u := s.u, phi := s.phi,
        trace := s.trace ++
          [specExactPen cfg.outerRadius cfg.innerRadius cfg.penOffset (s.t + simDt)] } ∧
    ∀ t' R r d : ℝ,
      (calculateExactStep t' R r d).cx = (specExactCenter R r t').1 ∧
      (calculateExactStep t' R r d).cy = (specExactCenter R r t').2 ∧
      (calculateExactStep t' R r d).phi = specExactPhi R r t' ∧
      (calculateExactStep t' R r d).px = (specExactPen R r d t').1 ∧
      (calculateExactStep t' R r d).py = (specExactPen R r d t').2 ∧
      (calculateExactStep t' R r d).contactX = (specExactContact R t').1 ∧
      (calculateExactStep t' R r d).contactY = (specExactContact R t').2 := by
  constructor
  · simp only [engineSubStep, if_pos h, calculateExactStep, specExactPen,
      specExactCenter, specExactPhi]
  · intro t' R r d
    refine ⟨rfl, rfl, rfl, rfl, rfl, rfl, rfl⟩

theorem exact_step_is_closed_form_witness :
    engineSubStep scenarioConfig clearState =
      { t := clearState.t + simDt, u := clearState.u, phi := clearState.phi,
        trace := clearState.trace ++
          [specExactPen 150 52 70 (clearState.t + simDt)] } ∧
    (calculateExactStep 0.002 150 52 70).phi = specExactPhi 150 52 0.002 :=
  have h := exact_step_is_closed_form scenarioConfig clearState
    (by constructor <;> norm_num [scenarioConfig, isCircular])
  ⟨h.1, (h.2 0.002 150 52 70).2.2.1⟩

/-- C4: the wheel/pinch zoom clamps the new scale to the bracket from 0.1 to
20 and recomputes the offset so the world coordinate under the anchor is
unchanged, including when the new scale is clamped; the pinch branch applies
the same formulas whenever its scale factor passes the 0.005 guard. -/
theorem zoomAt_clamps_and_preserves_anchor (prev : ViewTransform)
    (mouseX mouseY W H s : ℝ) (hk : 0 < prev.k) :
    (zoomAt prev mouseX mouseY W H s).k = max 0.1 (min 20 (prev.k * s)) ∧
    worldUnder (zoomAt prev mouseX mouseY W H s) W H mouseX mouseY =
      worldUnder prev W H mouseX mouseY ∧
    (0.005 < |s - 1| →
      pinchZoom prev mouseX mouseY W H s = zoomAt prev mouseX mouseY W H s) := by
  have hK : (0:ℝ) < max 0.1 (min 20 (prev.k * s)) :=
    lt_of_lt_of_le (by norm_num) (le_max_left _ _)
  refine ⟨rfl, ?_, fun hg => by simp only [pinchZoom, if_pos hg]⟩
  simp only [zoomAt, worldUnder, Prod.mk.injEq]
  constructor
  · field_simp
    ring
  · field_simp
    ring

theorem zoomAt_clamps_and_preserves_anchor_witness :
    (zoomAt ⟨0, 0, 1⟩ 10 20 800 600 2).k = max 0.1 (min 20 (1 * 2)) ∧
    worldUnder (zoomAt ⟨0, 0, 1⟩ 10 20 800 600 2) 800 600 10 20 =
      worldUnder ⟨0, 0, 1⟩ 800 600 10 20 ∧
    pinchZoom ⟨0, 0, 1⟩ 10 20 800 600 2 = zoomAt ⟨0, 0, 1⟩ 10 20 800 600 2 := by
  obtain ⟨a, b, c⟩ := zoomAt_clamps_and_preserves_anchor ⟨0, 0, 1⟩ 10 20 800 600 2
    (by norm_num : (0:ℝ) < (1:ℝ))
  exact ⟨a, b, c (by norm_num)⟩

/-- C8 counterexample: starting from a transform whose scale 20 lies inside
the bracket from 0.1 to 20, one press of the zoom-in button produces
scale 24, outside the bracket: the button handlers do not clamp. -/
theorem zoom_button_exceeds_bounds :
    (ViewTransform.mk 0 0 20).k ∈ Set.Icc (0.1:ℝ) 20 ∧
    (zoomInButton (ViewTransform.mk 0 0 20)).k ∉ Set.Icc (0.1:ℝ) 20 := by
  constructor
  · constructor <;> norm_num
  · intro hmem
    have h2 := hmem.2
    simp only [zoomInButton] at h2
    norm_num at h2

/-- C8 amended: the wheel zoom and the pinch zoom keep the scale inside the
bracket from 0.1 to 20 (the pinch leaves the transform unchanged when its
guard fails), and reset/fit produces a scale inside that bracket; the
zoom-in/zoom-out buttons only preserve strict positivity of the scale and
may leave the bracket. -/
theorem view_scale_bounds (prev : ViewTransform)
    (hk : prev.k ∈ Set.Icc (0.1:ℝ) 20)
    (mouseX mouseY W H s W2 H2 : ℝ) (cfg : SpiroConfig) :
    (zoomAt prev mouseX mouseY W H s).k ∈ Set.Icc (0.1:ℝ) 20 ∧
    (pinchZoom prev mouseX mouseY W H s).k ∈ Set.Icc (0.1:ℝ) 20 ∧
    (resetView cfg W2 H2).k ∈ Set.Icc (0.1:ℝ) 20 ∧
    0 < (zoomInButton prev).k ∧ 0 < (zoomOutButton prev).k := by
  have hclamp : ∀ v : ℝ, max 0.1 (min 20 v) ∈ Set.Icc (0.1:ℝ) 20 := fun v =>
    ⟨le_max_left _ _, max_le (by norm_num) (min_le_left _ _)⟩
  have hpos : 0 < prev.k := lt_of_lt_of_le (by norm_num) hk.1
  refine ⟨hclamp _, ?_, ?_, ?_, ?_⟩
  · by_cases hg : (0.005:ℝ) < |s - 1|
    · simp only [pinchZoom, if_pos hg]
      exact hclamp _
    · simp only [pinchZoom, if_neg hg]
      exact hk
  · simp only [resetView, calculateOptimalScale]
    refine ⟨le_max_left _ _, max_le (by norm_num) ?_⟩
    exact le_trans (min_le_left _ _) (by norm_num)
  · simp only [zoomInButton]
    exact mul_pos hpos (by norm_num)
  · simp only [zoomOutButton]
    exact div_pos hpos (by norm_num)

lemma rk4NewU_eq_spec {r rAspect : ℝ} (hr : 0 < r) (hrA : 0 < rAspect)
    (t dt u R sAspect : ℝ) :
    rk4NewU t dt u R r sAspect rAspect = specRK4NewU t dt u R r sAspect rAspect := by
  simp only [rk4NewU, specRK4NewU, getDerivative_eq_spec_of_pos hr hrA]

lemma getGeometry_eq_spec (t u R r d sAspect rAspect : ℝ) :
    (getGeometry t u R r d sAspect rAspect).phi = specNumericPhi t u R r sAspect rAspect ∧
    (getGeometry t u R r d sAspect rAspect).cx = (specRotorCenter t u R r sAspect rAspect).1 ∧
    (getGeometry t u R r d sAspect rAspect).cy = (specRotorCenter t u R r sAspect rAspect).2 ∧
    (getGeometry t u R r d sAspect rAspect).px = (specNumericPen t u R r d sAspect rAspect).1 ∧
    (getGeometry t u R r d sAspect rAspect).py = (specNumericPen t u R r d sAspect rAspect).2 ∧
    (getGeometry t u R r d sAspect rAspect).contactX = (specStatorContact t R sAspect).1 ∧
    (getGeometry t u R r d sAspect rAspect).contactY = (specStatorContact t R sAspect).2 := by
  refine ⟨?_, ?_, ?_, ?_, ?_, ?_, ?_⟩ <;>
    simp only [getGeometry, specNumericPhi, specAlpha, specBeta, specRotorCenter,
      specStatorContact, specRotorLocalContact, specNumericPen, rotVec,
      neg_mul, mul_neg_one, neg_neg]

/-- C2: in numeric mode, one sub-step advances u by the RK4-weighted sum of
the spec's four stage derivatives du/dt = statorSpeed(t)/rotorSpeed(u)
(the source's zero-denominator clamp never fires for strictly positive
rotor radius and aspect), advances t by dt, and reconstructs phi and the
pen point from (t + dt, newU) as phi = alpha - beta + pi,
center = contact - rotated local vector, pen = center + d (cos phi, sin phi). -/
theorem numeric_step_is_rk4 (cfg : SpiroConfig) (s : SimState)
    (hnc : ¬ isCircular cfg) (hr : 0 < cfg.innerRadius) (hrA : 0 < cfg.rotorAspect) :
    (engineSubStep cfg s).t = s.t + simDt ∧
    (engineSubStep cfg s).u =
      specRK4NewU s.t simDt s.u cfg.outerRadius cfg.innerRadius
        cfg.statorAspect cfg.rotorAspect ∧
    (engineSubStep cfg s).phi =
      specNumericPhi (s.t + simDt) ((engineSubStep cfg s).u)
        cfg.outerRadius cfg.innerRadius cfg.statorAspect cfg.rotorAspect ∧
    (engineSubStep cfg s).trace =
      s.trace ++
        [specNumericPen (s.t + simDt) ((engineSubStep cfg s).u)
          cfg.outerRadius cfg.innerRadius cfg.penOffset
          cfg.statorAspect cfg.rotorAspect] := by
  refine ⟨?_, ?_, ?_, ?_⟩
  · simp only [engineSubStep, if_neg hnc]
  · simp only [engineSubStep, if_neg hnc, calculatePhysicsStep,
      rk4NewU_eq_spec hr hrA]
  · simp only [engineSubStep, if_neg hnc, calculatePhysicsStep]
    exact (getGeometry_eq_spec _ _ _ _ _ _ _).1
  · simp only [engineSubStep, if_neg hnc, calculatePhysicsStep]
    have h := getGeometry_eq_spec (s.t + simDt)
      (rk4NewU s.t simDt s.u cfg.outerRadius cfg.innerRadius
        cfg.statorAspect cfg.rotorAspect)
      cfg.outerRadius cfg.innerRadius cfg.penOffset cfg.statorAspect cfg.rotorAspect
    rw [h.2.2.2.1, h.2.2.2.2.1]

/-- An elliptical configuration: rotor aspect 2, hence numeric mode. -/
def ellipticConfig : SpiroConfig :=
  { outerRadius := 150, innerRadius := 52, penOffset := 70, speed := 1,
    statorAspect := 1, rotorAspect := 2, showGears := true,
    numerator := none, denominator := none }

theorem numeric_step_is_rk4_witness :
    (engineSubStep ellipticConfig clearState).t = clearState.t + simDt ∧
    (engineSubStep ellipticConfig clearState).u =
      specRK4NewU clearState.t simDt clearState.u 150 52 1 2 := by
  obtain ⟨h1, h2, _, _⟩ := numeric_step_is_rk4 ellipticConfig clearState
    (by simp only [isCircular, ellipticConfig, not_and]; intro _; norm_num)
    (by norm_num [ellipticConfig]) (by norm_num [ellipticConfig])
  exact ⟨h1, h2⟩

theorem view_scale_bounds_witness :
    (zoomAt ⟨0, 0, 1⟩ 10 20 800 600 2).k ∈ Set.Icc (0.1:ℝ) 20 ∧
    (pinchZoom ⟨0, 0, 1⟩ 10 20 800 600 2).k ∈ Set.Icc (0.1:ℝ) 20 ∧
    (resetView scenarioConfig 800 600).k ∈ Set.Icc (0.1:ℝ) 20 ∧
    0 < (zoomInButton ⟨0, 0, 1⟩).k ∧ 0 < (zoomOutButton ⟨0, 0, 1⟩).k :=
  view_scale_bounds ⟨0, 0, 1⟩ (by constructor <;> norm_num) 10 20 800 600 2 800 600
    scenarioConfig

section RatioSearch

variable {α : Type*} [LinearOrderedField α] [FloorRing α]

lemma ratioLoopAux_zero (val : α) : ratioLoopAux val 0 = (0, 1, jsMaxValue α) := rfl

lemma ratioLoopAux_succ (val : α) (k : ℕ) :
    ratioLoopAux val (k + 1) =
      if |val - ((round (val * ((k + 1 : ℕ) : α)) : ℤ) : α) / ((k + 1 : ℕ) : α)| <
          (ratioLoopAux val k).2.2
      then (round (val * ((k + 1 : ℕ) : α)), k + 1,
            |val - ((round (val * ((k + 1 : ℕ) : α)) : ℤ) : α) / ((k + 1 : ℕ) : α)|)
      else ratioLoopAux val k := rfl

omit [FloorRing α] in
lemma half_lt_jsMaxValue : (1 : α) / 2 < jsMaxValue α := by
  unfold jsMaxValue
  have h1 : (1 : α) ≤ 2 ^ 53 - 1 := by norm_num
  have h2 : (1 : α) ≤ 2 ^ 971 := one_le_pow₀ (by norm_num)
  calc (1 : α) / 2 < 1 := by norm_num
    _ = 1 * 1 := by ring
    _ ≤ (2 ^ 53 - 1) * 2 ^ 971 := mul_le_mul h1 h2 (by norm_num) (by linarith)

/-- Rounding the scaled value gives the best numerator over a fixed
denominator: the error of round(val * d)/d is at most that of any n'/d. -/
lemma round_div_best (val : α) {d : ℕ} (hd : 1 ≤ d) (n' : ℤ) :
    |val - ((round (val * (d : α)) : ℤ) : α) / (d : α)| ≤
      |val - (n' : α) / (d : α)| := by
  have hd0 : (0 : α) < (d : α) := by
    have : (0 : ℕ) < d := hd
    exact_mod_cast this
  have key : ∀ m : ℤ, |val - (m : α) / (d : α)| = |val * (d : α) - (m : α)| / (d : α) := by
    intro m
    have hrw : val - (m : α) / (d : α) = (val * (d : α) - (m : α)) / (d : α) := by
      field_simp
    rw [hrw, abs_div, abs_of_pos hd0]
  rw [key, key]
  exact (div_le_div_iff_of_pos_right hd0).mpr (round_le (val * (d : α)) n')

/-- Loop invariant of the ratio search after the denominators 1..k: the
accumulator's error is the true error of its (bestN, bestD) pair, bestD lies
in 1..k, and the accumulated error is minimal over every denominator 1..k
and every integer numerator. -/
lemma ratioLoopAux_invariant (val : α) :
    ∀ k : ℕ, 1 ≤ k →
      (ratioLoopAux val k).2.2 =
          |val - ((ratioLoopAux val k).1 : α) / ((ratioLoopAux val k).2.1 : α)| ∧
      1 ≤ (ratioLoopAux val k).2.1 ∧ (ratioLoopAux val k).2.1 ≤ k ∧
      ∀ d' : ℕ, 1 ≤ d' → d' ≤ k → ∀ n' : ℤ,
        (ratioLoopAux val k).2.2 ≤ |val - (n' : α) / (d' : α)| := by
  intro k hk
  induction k, hk using Nat.le_induction with
  | base =>
    have h := ratioLoopAux_succ val 0
    norm_num [ratioLoopAux_zero] at h
    have he : |val - ((round val : ℤ) : α)| < jsMaxValue α :=
      lt_of_le_of_lt (abs_sub_round val) half_lt_jsMaxValue
    rw [h, if_pos he]
    refine ⟨by norm_num, le_refl 1, le_refl 1, ?_⟩
    intro d' hd1 hd2 n'
    have hd : d' = 1 := le_antisymm hd2 hd1
    subst hd
    have := round_div_best val (le_refl 1) n'
    norm_num at this ⊢
    exact this
  | succ k hk ih =>
    obtain ⟨ihErr, ihLo, ihHi, ihMin⟩ := ih
    rw [ratioLoopAux_succ val k]
    set e := |val - ((round (val * ((k + 1 : ℕ) : α)) : ℤ) : α) / ((k + 1 : ℕ) : α)|
      with hedef
    by_cases hlt : e < (ratioLoopAux val k).2.2
    · rw [if_pos hlt]
      refine ⟨hedef, Nat.le_add_left 1 k, le_refl (k + 1), ?_⟩
      intro d' hd1 hd2 n'
      rcases Nat.lt_or_ge d' (k + 1) with hcase | hcase
      · exact le_trans hlt.le (ihMin d' hd1 (Nat.lt_succ_iff.mp hcase) n')
      · have hd : d' = k + 1 := le_antisymm hd2 hcase
        subst hd
        exact round_div_best val hd1 n'
    · rw [if_neg hlt]
      push_neg at hlt
      refine ⟨ihErr, ihLo, le_trans ihHi (Nat.le_succ k), ?_⟩
      intro d' hd1 hd2 n'
      rcases Nat.lt_or_ge d' (k + 1) with hcase | hcase
      · exact ihMin d' hd1 (Nat.lt_succ_iff.mp hcase) n'
      · have hd : d' = k + 1 := le_antisymm hd2 hcase
        subst hd
        exact le_trans hlt (round_div_best val hd1 n')

end RatioSearch

/-- The circumference ratio of scenario 2 is exactly 26/75 in real
arithmetic: both curves are circles, so the ratio is (2 pi 52)/(2 pi 150). -/
lemma ratioFallbackVal_scenario : ratioFallbackVal scenarioConfig = 26 / 75 := by
  have hpi : (π : ℝ) ≠ 0 := Real.pi_ne_zero
  simp only [ratioFallbackVal, scenarioConfig, calculateEllipseCircumference, if_pos rfl]
  field_simp
  ring

/-- C6: in the annotated export, a present nonzero hint is displayed as the
rotor/stator ratio; with no hint the fallback search runs on
val = innerCircumference / outerCircumference, and the returned (bestN,
bestD) has bestD in 1..1000 and minimizes the error over every denominator
1..1000 and every integer numerator; for R = 150, r = 52 (both circular)
val is exactly 26/75, so the result is at least as good as (26, 75). -/
theorem ratio_display_minimizes (cfg : SpiroConfig) (val : ℝ) :
    (∀ n d : ℕ, cfg.numerator = some n → cfg.denominator = some d →
        n ≠ 0 → d ≠ 0 → ratioDisplayed cfg = ((n : ℤ), d)) ∧
    (cfg.numerator = none → ratioDisplayed cfg = ratioFallback cfg) ∧
    (1 ≤ (ratioLoop val).2.1 ∧ (ratioLoop val).2.1 ≤ 1000) ∧
    (∀ d' : ℕ, 1 ≤ d' → d' ≤ 1000 → ∀ n' : ℤ,
        |val - ((ratioLoop val).1 : ℝ) / ((ratioLoop val).2.1 : ℝ)| ≤
          |val - (n' : ℝ) / (d' : ℝ)|) ∧
    ratioFallbackVal scenarioConfig = 26 / 75 := by
  obtain ⟨hErr, hLo, hHi, hMin⟩ := ratioLoopAux_invariant val 1000 (by norm_num)
  refine ⟨?_, ?_, ⟨hLo, hHi⟩, ?_, ratioFallbackVal_scenario⟩
  · intro n d hn hd hn0 hd0
    simp only [ratioDisplayed, hn, hd, if_pos (And.intro hn0 hd0)]
  · intro hnone
    simp only [ratioDisplayed, hnone]
  · intro d' hd1 hd2 n'
    have := hMin d' hd1 hd2 n'
    rw [hErr] at this
    exact this

/-- A configuration carrying the default ratio hint 2/3. -/
def hintConfig : SpiroConfig :=
  { outerRadius := 150, innerRadius := 52, penOffset := 70, speed := 1,
    statorAspect := 1, rotorAspect := 1, showGears := true,
    numerator := some 2, denominator := some 3 }

theorem ratio_display_minimizes_witness :
    ratioDisplayed hintConfig = ((2 : ℤ), (3 : ℕ)) ∧
    |ratioFallbackVal scenarioConfig -
        ((ratioLoop (ratioFallbackVal scenarioConfig)).1 : ℝ) /
          ((ratioLoop (ratioFallbackVal scenarioConfig)).2.1 : ℝ)| ≤
      |ratioFallbackVal scenarioConfig - ((26 : ℤ) : ℝ) / ((75 : ℕ) : ℝ)| ∧
    ratioFallbackVal scenarioConfig = 26 / 75 := by
  obtain ⟨h1, _, _, h4, h5⟩ :=
    ratio_display_minimizes hintConfig (ratioFallbackVal scenarioConfig)
  exact ⟨h1 2 3 rfl rfl (by norm_num) (by norm_num),
    h4 75 (by norm_num) (by norm_num) 26, h5⟩

end SpiroGraph
